import Mathlib

/-!
Verification of the actix-mqtt core against its specification.

This file shallowly embeds the data model and operations of the repository:
the MQTT sink with its in-flight table (src/v3/sink.rs), the framing codec
(src/v3/codec/codec.rs) and the publish router (src/v5/router.rs), and proves
the specification's claims about them.
-/

namespace ActixMqtt

/-! ## Sink data model (src/v3/sink.rs) -/

/-- `AckType` tag stored with each in-flight slot (sink.rs lines 19-24). -/
inductive AckType where
  | publish
  | subscribe
  | unsubscribe
deriving DecidableEq, Repr

/-- `AckType::name` (sink.rs lines 190-198). -/
def AckType.name : AckType → String
  | .publish => "PublishAck"
  | .subscribe => "SubscribeAck"
  | .unsubscribe => "UnsubscribeAck"

/-- Modelled from the spec: the numeric packet-type constants of
`crate::types::packet_type` (types.rs is not among the provided sources).
Per the wire-format section, the packet type sits in the high nibble of the
first header byte; PUBACK, SUBACK and UNSUBACK are MQTT control types 4, 9
and 11. -/
def packetTypePUBACK : Nat := 0x40

/-- Modelled from the spec: SUBACK control-packet first byte (type 9). -/
def packetTypeSUBACK : Nat := 0x90

/-- Modelled from the spec: UNSUBACK control-packet first byte (type 11). -/
def packetTypeUNSUBACK : Nat := 0xB0

/-- An acknowledgement delivered to the sink (sink.rs lines 13-17).
Packet ids are `NonZeroU16` in the source; here they are `Nat`, with
range-side conditions carried by the theorems that need them.  Subscribe
return codes are opaque and modelled by `Nat`. -/
inductive Ack where
  | publish (packet_id : Nat)
  | subscribe (packet_id : Nat) (status : List Nat)
  | unsubscribe (packet_id : Nat)
deriving DecidableEq, Repr

/-- `Ack::packet_type` (sink.rs lines 156-162). -/
def Ack.packet_type : Ack → Nat
  | .publish _ => packetTypePUBACK
  | .subscribe _ _ => packetTypeSUBACK
  | .unsubscribe _ => packetTypeUNSUBACK

/-- `Ack::packet_id` (sink.rs lines 164-170). -/
def Ack.packet_id : Ack → Nat
  | .publish id => id
  | .subscribe id _ => id
  | .unsubscribe id => id

/-- `Ack::is_match` (sink.rs lines 180-187). -/
def Ack.is_match : Ack → AckType → Bool
  | .publish _, .publish => true
  | .subscribe _ _, .subscribe => true
  | .unsubscribe _, .unsubscribe => true
  | _, _ => false

/-- Model of `slab::Slab`: `entries` holds the occupied values (`none` =
vacant).  The slab crate threads its free list through the vacant entries
(each stores the next free index, with the slab's `next` field as the head);
here that intrusive chain is represented by the explicit list `free` of
vacant indices in chain order, which is behaviourally identical:
`insert` takes the head of the free list (or appends when it is empty) and
`remove` pushes the removed key onto its front. -/
structure Slab (α : Type) where
  entries : List (Option α)
  free : List Nat
deriving DecidableEq, Repr

/-- `Slab::with_capacity` / an empty slab. -/
def Slab.empty : Slab α := ⟨[], []⟩

/-- `Slab::len`: the number of occupied entries. -/
def Slab.len (s : Slab α) : Nat := s.entries.countP Option.isSome

/-- Lookup of the value stored at key `k` (occupied entries only). -/
def Slab.get? (s : Slab α) (k : Nat) : Option α := (s.entries[k]?).join

/-- `Slab::contains` (true iff the entry at `k` is occupied). -/
def Slab.contains (s : Slab α) (k : Nat) : Bool := (s.get? k).isSome

/-- `Slab::insert`: occupy the head of the free list, or append a fresh
entry; returns the key. -/
def Slab.insert (s : Slab α) (v : α) : Nat × Slab α :=
  match s.free with
  | [] => (s.entries.length, ⟨s.entries ++ [some v], []⟩)
  | f :: rest => (f, ⟨s.entries.set f (some v), rest⟩)

/-- `Slab::remove`'s state change: vacate key `k` and push it onto the free
list.  (The source panics when `k` is vacant; every call site below is
guarded by occupancy, matching the source's `contains` guard and the
remove-just-inserted pattern.) -/
def Slab.erase (s : Slab α) (k : Nat) : Slab α :=
  ⟨s.entries.set k none, k :: s.free⟩

/-- Well-formedness of the slab free list: free indices are distinct, in
range and vacant, and every vacant entry is on the free list.  This is the
representation invariant the slab crate maintains for its intrusive chain. -/
def Slab.WF (s : Slab α) : Prop :=
  s.free.Nodup ∧
  (∀ f ∈ s.free, s.entries[f]? = some none) ∧
  (∀ j, j < s.entries.length → s.entries[j]? = some none → j ∈ s.free)

/-- A parked sender waiting for an in-flight slot: a `pool::Sender<()>`
whose receiver may have been dropped (`alive = false`). -/
structure Waiter where
  wid : Nat
  alive : Bool
deriving DecidableEq, Repr

/-- The outbound `mpsc::Sender`; `alive = false` when the dispatcher side
has been dropped, making `send` fail. -/
structure Sender where
  alive : Bool
deriving DecidableEq, Repr

/-- `MqttSinkInner` (sink.rs lines 37-44).  Each in-flight slot stores the
one-shot ack channel (modelled by a numeric token allocated from
`nextChan`, standing for `pool.queue.channel()`) and its `AckType`.
`nextWaiter` likewise numbers the waiter one-shots. -/
structure MqttSinkInner where
  cap : Nat
  sink : Option Sender
  queue : Slab (Nat × AckType)
  queue_order : List Nat
  waiters : List Waiter
  nextChan : Nat
  nextWaiter : Nat
deriving DecidableEq, Repr

/-- `MqttSink::new` (sink.rs lines 53-66) with a live outbound sender. -/
def MqttSink.new (cap : Nat) : MqttSinkInner :=
  { cap := cap, sink := some ⟨true⟩, queue := Slab.empty, queue_order := []
    waiters := [], nextChan := 0, nextWaiter := 0 }

/-- `MqttSink::close` (sink.rs lines 69-71): drop the outbound sender. -/
def MqttSink.close (st : MqttSinkInner) : MqttSinkInner :=
  {st with sink := none}

/-- A packet pushed onto the outbound channel by the sink. -/
inductive SentMsg where
  | pingRequest
  | publish (packet_id : Option Nat)
  | subscribe (packet_id : Nat)
  | unsubscribe (packet_id : Nat)
deriving DecidableEq, Repr

/-- `MqttSink::ping` (sink.rs lines 74-80): `take()` the outbound sender
(moving it out of the state), push `PingRequest` on it, return whether the
push succeeded.  The third component is the message actually delivered to
the channel, if any. -/
def MqttSink.ping (st : MqttSinkInner) : Bool × MqttSinkInner × Option SentMsg :=
  match st.sink with
  | some sender =>
      (sender.alive, {st with sink := none},
        if sender.alive then some .pingRequest else none)
  | none => (false, st, none)

/-- `ProtocolError` variants produced by `pkt_ack`. -/
inductive ProtocolError where
  | packetIdMismatch
  | unexpected (got : Nat) (expected : String)
deriving DecidableEq, Repr

/-- Outcome tag of a `pkt_ack` call.  `panicked` models reaching the
`unreachable!` branch (sink.rs 138).  `borrowPanic` models the
`BorrowMutError` panic raised when `self.close()` (sink.rs 144) calls
`self.0.borrow_mut()` while the `RefMut` taken at sink.rs 108 is still
live: `RefMut` has a destructor, so its borrow lasts to the end of the
function body. -/
inductive PktAckResult where
  | ok
  | err (e : ProtocolError)
  | panicked
  | borrowPanic
deriving DecidableEq, Repr

/-- The waiter wake-up loop of `pkt_ack` (sink.rs lines 131-135): pop
waiters from the front, stopping after the first whose receiver is still
alive; returns the remaining waiters and the waiter woken, if any. -/
def wakeOne : List Waiter → List Waiter × Option Nat
  | [] => ([], none)
  | w :: ws => if w.alive then (ws, some w.wid) else wakeOne ws

/-- Full outcome of `pkt_ack`: result tag, post state, the (channel, ack)
pair delivered on a slot's one-shot (if any), and the waiter woken. -/
structure PktAckOut where
  result : PktAckResult
  state : MqttSinkInner
  delivered : Option (Nat × Ack)
  woken : Option Nat
deriving DecidableEq, Repr

/-- `MqttSink::pkt_ack` (sink.rs lines 107-146).  The source checks
`queue.contains(idx)` and then `queue.remove(idx)`; this is rendered as a
`get?` match plus `erase`.  All paths after `queue_order.pop_front()` keep
the head popped; the `Unexpected` path returns without calling `close`.
The empty-queue and id-mismatch paths fall through to
`self.close(); return Err(PacketIdMismatch)` (sink.rs 144-145), but
`close()` re-borrows the `RefCell` while the `RefMut` from sink.rs 108 is
still live, so both paths actually panic with `BorrowMutError` before the
sink is closed or the error returned: the state keeps only the mutations
made before the panic (the popped head), and the sink stays present. -/
def MqttSink.pkt_ack (st : MqttSinkInner) (pkt : Ack) : PktAckOut :=
  match st.queue_order with
  | [] =>
      ⟨.borrowPanic, st, none, none⟩
  | idx :: rest =>
      if idx ≠ pkt.packet_id then
        ⟨.borrowPanic, {st with queue_order := rest}, none, none⟩
      else
        let i := pkt.packet_id - 1
        match st.queue.get? i with
        | some (chan, tp) =>
            let st1 := {st with queue_order := rest, queue := st.queue.erase i}
            if ¬ pkt.is_match tp then
              ⟨.err (.unexpected pkt.packet_type tp.name), st1, none, none⟩
            else
              let ws := wakeOne st1.waiters
              ⟨.ok, {st1 with waiters := ws.1}, some (chan, pkt), ws.2⟩
        | none =>
            ⟨.panicked, {st with queue_order := rest}, none, none⟩

/-- Outcome of an ack-requiring send attempt. -/
inductive SendOutcome where
  | disconnected
  | parked (wid : Nat)
  | packetIdNotAvailable
  | sent (packet_id : Nat)
  | panicked
deriving DecidableEq, Repr

/-- The packet a builder pushes for its `AckType` and allocated id. -/
def mkMsg : AckType → Nat → SentMsg
  | .publish, pid => .publish (some pid)
  | .subscribe, pid => .subscribe pid
  | .unsubscribe, pid => .unsubscribe pid

/-- The allocation-and-send phase shared verbatim by
`PublishBuilder::send_at_least_once` (sink.rs lines 251-272),
`SubscribeBuilder::send` (lines 314-344) and `UnsubscribeBuilder::send`
(lines 386-416): create the ack channel, insert the slot, derive
`packet_id = slot index + 1`, undo the insert and fail
`PacketIdNotAvailable` on overflow past 65535, else append the id to
`queue_order` and push the packet.  `panicked` models the
`sink.as_ref().unwrap()` on an absent sender. -/
def allocAndSend (st : MqttSinkInner) (tp : AckType) :
    SendOutcome × MqttSinkInner × Option SentMsg :=
  let chan := st.nextChan
  let st0 := {st with nextChan := chan + 1}
  let ins := st0.queue.insert (chan, tp)
  let i := ins.1
  if i + 1 > 65535 then
    (.packetIdNotAvailable, {st0 with queue := ins.2.erase i}, none)
  else
    let st1 := {st0 with queue := ins.2, queue_order := st0.queue_order ++ [i + 1]}
    match st1.sink with
    | some sender =>
        if sender.alive then
          (.sent (i + 1), st1, some (mkMsg tp (i + 1)))
        else
          (.disconnected, st1, none)
    | none => (.panicked, st1, none)

/-- The synchronous first phase of an ack-requiring send (each builder's
lines up to the first await): fail `Disconnected` when the sender is gone;
park a fresh waiter when `cap - queue.len() == 0`; otherwise allocate and
push. -/
def sendAckRequiring (st : MqttSinkInner) (tp : AckType) :
    SendOutcome × MqttSinkInner × Option SentMsg :=
  match st.sink with
  | none => (.disconnected, st, none)
  | some _ =>
      if st.cap - st.queue.len = 0 then
        (.parked st.nextWaiter,
          {st with waiters := st.waiters ++ [⟨st.nextWaiter, true⟩],
                   nextWaiter := st.nextWaiter + 1}, none)
      else
        allocAndSend st tp

/-- `PublishBuilder::send_at_least_once` (sink.rs lines 231-276), first
phase. -/
def PublishBuilder.send_at_least_once_step (st : MqttSinkInner) :
    SendOutcome × MqttSinkInner × Option SentMsg :=
  sendAckRequiring st .publish

/-- `SubscribeBuilder::send` (sink.rs lines 293-348), first phase. -/
def SubscribeBuilder.send_step (st : MqttSinkInner) :
    SendOutcome × MqttSinkInner × Option SentMsg :=
  sendAckRequiring st .subscribe

/-- `UnsubscribeBuilder::send` (sink.rs lines 365-420), first phase. -/
def UnsubscribeBuilder.send_step (st : MqttSinkInner) :
    SendOutcome × MqttSinkInner × Option SentMsg :=
  sendAckRequiring st .unsubscribe

/-! ## Framing codec (src/v3/codec/codec.rs) -/

/-- Decode-side errors (the error surface listed by the spec). -/
inductive DecodeError where
  | maxSizeExceeded
  | malformedPacket
  | invalidProtocol
  | unsupportedProtocolLevel
  | invalidLength
  | utf8
deriving DecidableEq, Repr

/-- Modelled from the spec: `crate::utils::decode_variable_length`
(utils.rs is not among the provided sources).  A variable-length integer is
1-4 bytes; each byte's high bit is continuation and the low 7 bits are
accumulated little-endian (7 bits per byte); an incomplete varint yields
"need more" (`ok none`); a fourth byte that still has the continuation bit
set exceeds the 268,435,455 maximum and is an `InvalidLength` error.
Returns the decoded value and the number of bytes consumed.
`count` is the number of bytes already consumed; bytes are taken mod 256. -/
def decodeVarLenAux : List Nat → Nat → Nat → Except DecodeError (Option (Nat × Nat))
  | [], _, _ => .ok none
  | b :: rest, value, count =>
      let value := value + b % 128 * 128 ^ count
      if b % 256 < 128 then
        .ok (some (value, count + 1))
      else if count + 1 ≥ 4 then
        .error .invalidLength
      else
        decodeVarLenAux rest value (count + 1)

/-- Modelled from the spec: entry point of the variable-length-integer
decoder, applied to the buffer starting right after the first header byte. -/
def decode_variable_length (src : List Nat) : Except DecodeError (Option (Nat × Nat)) :=
  decodeVarLenAux src 0 0

/-- `FixedHeader` (types.rs shape as used by codec.rs): first byte plus the
decoded remaining length. -/
structure FixedHeader where
  first_byte : Nat
  remaining_length : Nat
deriving DecidableEq, Repr

/-- `DecodeState` (codec.rs lines 16-20). -/
inductive DecodeState where
  | frameHeader
  | frame (h : FixedHeader)
deriving DecidableEq, Repr

/-- `Codec` (codec.rs lines 9-14). -/
structure Codec where
  state : DecodeState
  max_size : Nat
deriving DecidableEq, Repr

/-- `Codec::new` (codec.rs lines 24-26). -/
def Codec.new : Codec := ⟨.frameHeader, 0⟩

/-- `Codec::max_size` builder (codec.rs lines 32-35). -/
def Codec.withMaxSize (c : Codec) (size : Nat) : Codec :=
  {c with max_size := size}

/-- The `DecodeState::Frame` arm of `Codec::decode` (codec.rs lines
89-98): wait for the whole body, split it off, decode the typed packet and
reset to `FrameHeader`.  The body decoder `decode_packet` is a parameter:
packet payload decoding is out of scope for the spec and opaque here.
A body-decode error propagates after the split (`?` after `split_to`), so
the buffer is advanced and the state unchanged in that case. -/
def decodeFrame (decodePacket : Nat → List Nat → Except DecodeError P)
    (c : Codec) (fixed : FixedHeader) (src : List Nat) :
    Except DecodeError (Option P) × Codec × List Nat :=
  if src.length < fixed.remaining_length then
    (.ok none, c, src)
  else
    let packet_buf := src.take fixed.remaining_length
    let rest := src.drop fixed.remaining_length
    match decodePacket fixed.first_byte packet_buf with
    | .error e => (.error e, c, rest)
    | .ok p => (.ok (some p), {c with state := .frameHeader}, rest)

/-- `Codec::decode` (codec.rs lines 56-101).  The source's `loop` runs at
most twice (header arm, then frame arm when the body is already buffered);
it is unrolled here.  Returns the result, the new codec state and the
remaining buffer. -/
def Codec.decode (decodePacket : Nat → List Nat → Except DecodeError P)
    (c : Codec) (src : List Nat) :
    Except DecodeError (Option P) × Codec × List Nat :=
  match c.state with
  | .frame fixed => decodeFrame decodePacket c fixed src
  | .frameHeader =>
      if src.length < 2 then
        (.ok none, c, src)
      else
        match decode_variable_length (src.drop 1) with
        | .error e => (.error e, c, src)
        | .ok none => (.ok none, c, src)
        | .ok (some (remaining_length, consumed)) =>
            if c.max_size ≠ 0 ∧ c.max_size < remaining_length then
              (.error .maxSizeExceeded, c, src)
            else
              let first_byte := src.headD 0
              let src1 := src.drop (consumed + 1)
              let c1 : Codec := {c with state := .frame ⟨first_byte, remaining_length⟩}
              if src1.length < remaining_length then
                (.ok none, c1, src1)
              else
                decodeFrame decodePacket c1 ⟨first_byte, remaining_length⟩ src1

/-! ## Router (src/v5/router.rs) -/

/-- The part of a `Publish` request the router inspects: its topic path and
the optional v5 `topic_alias` property (a `NonZeroU16` in the source). -/
structure PublishReq where
  topic : String
  topic_alias : Option Nat
deriving DecidableEq, Repr

/-- The router's alias table `aliases: FxHashMap<NonZeroU16, (usize,
Path)>`, modelled as an association list with insert-at-front /
first-match-wins semantics, which is the hash map's insert-overwrites
behaviour. -/
abbrev AliasMap : Type := List (Nat × Nat × String)

/-- Hash-map lookup in the alias table. -/
def aliasLookup (m : AliasMap) (a : Nat) : Option (Nat × String) :=
  ((List.find? (fun e => e.1 == a)) m).map (fun e => e.2)

/-- Hash-map insert (overwrite) in the alias table. -/
def aliasInsert (m : AliasMap) (a : Nat) (v : Nat × String) : AliasMap :=
  (a, v) :: m

/-- Where `RouterService::call` sends the request: one of the indexed
sub-handlers, or the default handler, each receiving the (possibly
topic-substituted) request. -/
inductive CallTarget where
  | handler (idx : Nat) (req : PublishReq)
  | dflt (req : PublishReq)
deriving DecidableEq, Repr

/-- `RouterService::call` (router.rs lines 185-206).  `recognize` is the
`ntex::router::Router::recognize` pattern matcher (external crate),
abstracted as a function from topic to matched handler index. -/
def RouterService.call (recognize : String → Option Nat) (aliases : AliasMap)
    (req : PublishReq) : CallTarget × AliasMap :=
  if req.topic ≠ "" then
    match recognize req.topic with
    | some idx =>
        let aliases1 :=
          match req.topic_alias with
          | some a => aliasInsert aliases a (idx, req.topic)
          | none => aliases
        (.handler idx req, aliases1)
    | none => (.dflt req, aliases)
  else
    match req.topic_alias with
    | some a =>
        match aliasLookup aliases a with
        | some item => (.handler item.1 {req with topic := item.2}, aliases)
        | none => (.dflt req, aliases)
    | none => (.dflt req, aliases)

/-- A sub-handler's `poll_ready` result: ready, pending, or an error
(`Poll<Result<(), E>>`). -/
inductive PollReady (E : Type) where
  | ready
  | pending
  | err (e : E)
deriving DecidableEq, Repr

/-- The `for hnd in &self.handlers` loop of `RouterService::poll_ready`
(router.rs lines 170-183): an error returns immediately via `?`; a pending
handler sets `not_ready`; after the loop, `Pending` iff `not_ready`. -/
def pollReadyLoop : List (PollReady E) → Bool → PollReady E
  | [], notReady => if notReady then .pending else .ready
  | h :: hs, notReady =>
      match h with
      | .err e => .err e
      | .pending => pollReadyLoop hs true
      | .ready => pollReadyLoop hs notReady

/-- The readiness-relevant state of a `RouterService`: the current
`poll_ready` results of the indexed sub-handlers and of the default
handler. -/
structure RouterServiceReadiness (E : Type) where
  handlers : List (PollReady E)
  dflt : PollReady E
deriving DecidableEq, Repr

/-- `RouterService::poll_ready` (router.rs lines 170-183).  Note that the
source iterates over `self.handlers` only; the `default` service is not
polled. -/
def RouterService.poll_ready (s : RouterServiceReadiness E) : PollReady E :=
  pollReadyLoop s.handlers false

/-! ## Helper lemmas about lists and slabs -/

theorem list_lt_of_getElem?_eq_some {l : List α} {n : Nat} {a : α}
    (h : l[n]? = some a) : n < l.length :=
  (List.getElem?_eq_some.mp h).1

theorem list_set_getElem?_self {l : List α} {n : Nat} {a : α}
    (h : l[n]? = some a) : l.set n a = l := by
  induction l generalizing n with
  | nil => simp at h
  | cons x xs ih =>
      cases n with
      | zero => simp_all
      | succ m => simpa using ih (by simpa using h)

theorem list_set_concat_length (l : List α) (a b : α) :
    (l ++ [a]).set l.length b = l ++ [b] := by
  induction l with
  | nil => rfl
  | cons x xs ih => simp [ih]

theorem Slab.contains_iff {s : Slab α} {k : Nat} :
    s.contains k = true ↔ ∃ v, s.entries[k]? = some (some v) := by
  unfold Slab.contains Slab.get?
  cases h : s.entries[k]? with
  | none => simp
  | some o => cases o <;> simp

/-- The key an insert returns was vacant before the insert. -/
theorem Slab.insert_key_not_contains (s : Slab α) (v : α) (hwf : s.WF) :
    s.contains (s.insert v).1 = false := by
  rcases hf : s.free with _ | ⟨f, rest⟩
  · simp [Slab.insert, hf, Slab.contains, Slab.get?, List.getElem?_length]
  · have h := hwf.2.1 f (by rw [hf]; exact List.mem_cons_self f rest)
    simp [Slab.insert, hf, Slab.contains, Slab.get?, h]

/-- After an insert, the returned key holds the inserted value. -/
theorem Slab.insert_get?_key (s : Slab α) (v : α) (hwf : s.WF) :
    (s.insert v).2.get? (s.insert v).1 = some v := by
  rcases hf : s.free with _ | ⟨f, rest⟩
  · simp [Slab.insert, hf, Slab.get?, List.getElem?_concat_length]
  · have h := hwf.2.1 f (by rw [hf]; exact List.mem_cons_self f rest)
    have hlt : f < s.entries.length := list_lt_of_getElem?_eq_some h
    simp [Slab.insert, hf, Slab.get?, List.getElem?_set_self hlt]

/-- An insert leaves every other key unchanged. -/
theorem Slab.insert_get?_ne (s : Slab α) (v : α) (k : Nat)
    (hk : k ≠ (s.insert v).1) :
    (s.insert v).2.get? k = s.get? k := by
  rcases hf : s.free with _ | ⟨f, rest⟩
  · have hk : k ≠ s.entries.length := by simpa [Slab.insert, hf] using hk
    rcases Nat.lt_or_ge k s.entries.length with hlt | hge
    · simp [Slab.insert, hf, Slab.get?, List.getElem?_append_left hlt]
    · have hgt : s.entries.length < k := Nat.lt_of_le_of_ne hge (fun h => hk h.symm)
      have h1 : (s.entries ++ [some v])[k]? = none :=
        List.getElem?_eq_none_iff.mpr (by simpa using hgt)
      have h2 : s.entries[k]? = none := List.getElem?_eq_none_iff.mpr hge
      simp [Slab.insert, hf, Slab.get?, h1, h2]
  · have hk : f ≠ k := by
      intro h; exact hk (by simp [Slab.insert, hf, h])
    simp [Slab.insert, hf, Slab.get?, List.getElem?_set_ne hk]

/-- Insert preserves slab well-formedness. -/
theorem Slab.insert_WF (s : Slab α) (v : α) (hwf : s.WF) : (s.insert v).2.WF := by
  obtain ⟨hnd, hmem, hcomp⟩ := hwf
  rcases hf : s.free with _ | ⟨f, rest⟩
  · refine ⟨by simp [Slab.insert, hf], by simp [Slab.insert, hf], ?_⟩
    intro j hj hvac
    simp only [Slab.insert, hf] at hj hvac
    rcases Nat.lt_or_ge j s.entries.length with hlt | hge
    · rw [List.getElem?_append_left hlt] at hvac
      exact absurd (hcomp j hlt hvac) (by rw [hf]; exact List.not_mem_nil j)
    · have hj : j < s.entries.length + 1 := by simpa using hj
      have : j = s.entries.length := Nat.le_antisymm (Nat.le_of_lt_succ hj) hge
      rw [this, List.getElem?_concat_length] at hvac
      exact Option.noConfusion (Option.some.inj hvac)
  · have hfe := hmem f (by rw [hf]; exact List.mem_cons_self f rest)
    have hflt : f < s.entries.length := list_lt_of_getElem?_eq_some hfe
    have hnd : (f :: rest).Nodup := hf ▸ hnd
    refine ⟨by simp only [Slab.insert, hf]; exact (List.nodup_cons.mp hnd).2, ?_, ?_⟩
    · intro g hg
      simp only [Slab.insert, hf] at hg ⊢
      have hgf : f ≠ g := fun h =>
        (List.nodup_cons.mp hnd).1 (h ▸ hg)
      rw [List.getElem?_set_ne hgf]
      exact hmem g (by rw [hf]; exact List.mem_cons_of_mem f hg)
    · intro j hj hvac
      simp only [Slab.insert, hf, List.length_set] at hj hvac ⊢
      by_cases hjf : j = f
      · rw [hjf, List.getElem?_set_self hflt] at hvac
        exact Option.noConfusion (Option.some.inj hvac)
      · rw [List.getElem?_set_ne (fun h => hjf h.symm)] at hvac
        have := hcomp j hj hvac
        rw [hf] at this
        rcases List.mem_cons.mp this with h | h
        · exact absurd h hjf
        · exact h

/-- Erase vacates the erased key. -/
theorem Slab.erase_get?_key (s : Slab α) (k : Nat) : (s.erase k).get? k = none := by
  rcases Nat.lt_or_ge k s.entries.length with hlt | hge
  · simp [Slab.erase, Slab.get?, List.getElem?_set_self hlt]
  · have h0 : (s.entries.set k none)[k]? = none :=
      List.getElem?_eq_none_iff.mpr (by simpa using hge)
    simp [Slab.erase, Slab.get?, h0]

/-- Erase leaves every other key unchanged. -/
theorem Slab.erase_get?_ne (s : Slab α) (k j : Nat) (h : j ≠ k) :
    (s.erase k).get? j = s.get? j := by
  simp [Slab.erase, Slab.get?, List.getElem?_set_ne (fun hh => h hh.symm)]

/-- Erasing an occupied key preserves slab well-formedness. -/
theorem Slab.erase_WF (s : Slab α) (k : Nat) (hk : s.contains k = true)
    (hwf : s.WF) : (s.erase k).WF := by
  obtain ⟨v, hv⟩ := Slab.contains_iff.mp hk
  have hklt : k < s.entries.length := list_lt_of_getElem?_eq_some hv
  obtain ⟨hnd, hmem, hcomp⟩ := hwf
  have hknf : k ∉ s.free := by
    intro h
    rw [hmem k h] at hv
    exact Option.noConfusion (Option.some.inj hv)
  refine ⟨List.nodup_cons.mpr ⟨hknf, hnd⟩, ?_, ?_⟩
  · intro f hf
    rcases List.mem_cons.mp hf with rfl | hf
    · simpa [Slab.erase] using List.getElem?_set_self (a := (none : Option α)) hklt
    · have hfk : k ≠ f := fun h => hknf (h ▸ hf)
      simpa [Slab.erase, List.getElem?_set_ne hfk] using hmem f hf
  · intro j hj hvac
    simp only [Slab.erase, List.length_set] at hj hvac
    by_cases hjk : j = k
    · exact hjk ▸ List.mem_cons_self k s.free
    · rw [List.getElem?_set_ne (fun h => hjk h.symm)] at hvac
      exact List.mem_cons_of_mem k (hcomp j hj hvac)

/-! ## Claim theorems -/

/-- A sink with two in-flight publishes (ids 1 and 2, sent in that order)
and a live outbound sender, used to settle C1's mismatch path. -/
def outOfOrderState : MqttSinkInner :=
  { cap := 2, sink := some ⟨true⟩,
    queue := ⟨[some (0, AckType.publish), some (1, AckType.publish)], []⟩,
    queue_order := [1, 2], waiters := [], nextChan := 2, nextWaiter := 0 }

/-- C1 (code bug): the claim says that on an empty `queue_order`, or when
the popped head differs from the ack's packet-id, `pkt_ack` closes the
sink and returns `PacketIdMismatch` without delivering the ack.  The
source indeed ends both paths with `self.close(); return
Err(ProtocolError::PacketIdMismatch)` (sink.rs 144-145) — that is clearly
the intent — but `close()` calls `self.0.borrow_mut()` while the `RefMut`
taken at sink.rs 108 is still live (a `RefMut` has a destructor, so its
borrow lasts to the end of the function), so both paths panic with
`BorrowMutError` instead: the sink is never closed and the error is never
returned.  This theorem evaluates the model at both failing inputs: a
fresh sink receiving `PublishAck(1)` (empty queue), and a sink with
in-flight ids [1, 2] receiving the out-of-order `PublishAck(2)` (head
mismatch).  In each case the result is the borrow panic, the sink is
still present, and no ack is delivered. -/
theorem pkt_ack_close_borrow_panic :
    (MqttSink.pkt_ack (MqttSink.new 2) (.publish 1) =
      ⟨.borrowPanic, MqttSink.new 2, none, none⟩) ∧
    (MqttSink.pkt_ack outOfOrderState (.publish 2) =
      ⟨.borrowPanic, {outOfOrderState with queue_order := [2]}, none, none⟩) ∧
    (MqttSink.pkt_ack outOfOrderState (.publish 2)).state.sink ≠ none ∧
    (MqttSink.pkt_ack (MqttSink.new 2) (.publish 1)).state.sink ≠ none := by
  decide

/-- A sink state with one in-flight subscribe (packet-id 1) and a live
outbound sender, used to settle C6. -/
def kindMismatchState : MqttSinkInner :=
  { cap := 2, sink := some ⟨true⟩,
    queue := ⟨[some (0, AckType.subscribe)], []⟩,
    queue_order := [1], waiters := [], nextChan := 1, nextWaiter := 0 }

/-- C6 counterexample: a `PublishAck` for packet-id 1 while the slot at
index 0 is a Subscribe slot makes `pkt_ack` fail
`Unexpected(PUBACK, "SubscribeAck")`, but the sink is NOT closed: the
source returns from inside the match before reaching `self.close()`, so
the outbound sender is still present afterwards, contrary to the claim. -/
theorem pkt_ack_kind_mismatch_cex :
    (MqttSink.pkt_ack kindMismatchState (.publish 1)).result =
        .err (.unexpected packetTypePUBACK "SubscribeAck") ∧
    (MqttSink.pkt_ack kindMismatchState (.publish 1)).state.sink ≠ none := by
  decide

/-- C6 amended: for every ack whose packet-id matches the popped head of
`queue_order` but whose kind does not match the `AckType` stored in the
slot at index `id - 1`, `pkt_ack` fails with `Unexpected(got, expected)`,
the slot having been removed and the head popped, and does NOT close the
sink (the outbound sender is left untouched). -/
theorem pkt_ack_kind_mismatch_unexpected (st : MqttSinkInner) (pkt : Ack)
    (rest : List Nat) (chan : Nat) (tp : AckType)
    (hq : st.queue_order = pkt.packet_id :: rest)
    (hs : st.queue.get? (pkt.packet_id - 1) = some (chan, tp))
    (hm : pkt.is_match tp = false) :
    MqttSink.pkt_ack st pkt =
      ⟨.err (.unexpected pkt.packet_type tp.name),
       {st with queue_order := rest,
                queue := st.queue.erase (pkt.packet_id - 1)},
       none, none⟩ ∧
    (MqttSink.pkt_ack st pkt).state.sink = st.sink := by
  constructor
  · simp [MqttSink.pkt_ack, hq, hs, hm]
  · simp [MqttSink.pkt_ack, hq, hs, hm]

/-- Witness for the C6 amended theorem at the concrete mismatch state. -/
theorem pkt_ack_kind_mismatch_unexpected_witness :
    MqttSink.pkt_ack kindMismatchState (.publish 1) =
      ⟨.err (.unexpected packetTypePUBACK "SubscribeAck"),
       {kindMismatchState with queue_order := [],
                               queue := kindMismatchState.queue.erase 0},
       none, none⟩ :=
  (pkt_ack_kind_mismatch_unexpected kindMismatchState (.publish 1)
    [] 0 .subscribe rfl rfl rfl).1

/-- C9: calling `ping()` on a sink whose sender is present pushes
`PingRequest` (when the channel is still open) and removes the outbound
sender from the sink state by move; consequently every subsequent
ack-requiring send on the (shared, clone-visible) sink state fails
`Disconnected`, and a second `ping()` returns `false`. -/
theorem ping_moves_out_sender (st : MqttSinkInner) (sender : Sender)
    (h : st.sink = some sender) :
    MqttSink.ping st =
      (sender.alive, {st with sink := none},
        if sender.alive then some .pingRequest else none) ∧
    (∀ tp, sendAckRequiring {st with sink := none} tp =
        (.disconnected, {st with sink := none}, none)) ∧
    MqttSink.ping {st with sink := none} =
      (false, {st with sink := none}, none) := by
  refine ⟨by simp [MqttSink.ping, h], ?_, by simp [MqttSink.ping]⟩
  intro tp
  simp [sendAckRequiring]

/-- Witness for the C9 theorem at a fresh sink with a live sender. -/
theorem ping_moves_out_sender_witness :
    MqttSink.ping (MqttSink.new 1) =
      (true, {MqttSink.new 1 with sink := none}, some .pingRequest) := by
  simpa using (ping_moves_out_sender (MqttSink.new 1) ⟨true⟩ rfl).1

/-- The `poll_ready` loop yields `Ready` exactly when it started with a
clear `not_ready` flag and every polled handler is ready. -/
theorem pollReadyLoop_ready_iff {E : Type} (hs : List (PollReady E)) (b : Bool) :
    pollReadyLoop hs b = .ready ↔ (b = false ∧ ∀ h ∈ hs, h = .ready) := by
  induction hs generalizing b with
  | nil => cases b <;> simp [pollReadyLoop]
  | cons h t ih =>
      cases h with
      | ready => simp [pollReadyLoop, ih]
      | pending => simp [pollReadyLoop, ih]
      | err e => simp [pollReadyLoop]

/-- Absent handler errors, a pending handler (or an already-set flag)
forces the loop to yield `Pending`. -/
theorem pollReadyLoop_pending {E : Type} (hs : List (PollReady E)) (b : Bool)
    (herr : ∀ h ∈ hs, ∀ e, h ≠ .err e) (hp : b = true ∨ .pending ∈ hs) :
    pollReadyLoop hs b = .pending := by
  induction hs generalizing b with
  | nil =>
      rcases hp with rfl | h
      · simp [pollReadyLoop]
      · exact absurd h (List.not_mem_nil _)
  | cons h t ih =>
      cases h with
      | ready =>
          simp only [pollReadyLoop]
          refine ih b (fun x hx e => herr x (List.mem_cons_of_mem _ hx) e) ?_
          rcases hp with rfl | hm
          · exact Or.inl rfl
          · rcases List.mem_cons.mp hm with h | h
            · exact absurd h (by simp)
            · exact Or.inr h
      | pending =>
          simp only [pollReadyLoop]
          exact ih true (fun x hx e => herr x (List.mem_cons_of_mem _ hx) e)
            (Or.inl rfl)
      | err e =>
          exact absurd rfl (herr _ (List.mem_cons_self _ _) e)

/-- C3 counterexample: a router with no pattern handlers whose default
handler is `Pending` still gets `Ready` from `poll_ready`, because the
source's loop iterates over `self.handlers` only and never polls the
default service — contradicting the claim that `poll_ready` is `Pending`
whenever any sub-handler including the default is `Pending`. -/
theorem router_poll_ready_ignores_default_cex :
    RouterService.poll_ready (E := Unit) ⟨[], .pending⟩ = .ready ∧
    RouterService.poll_ready (E := Unit) ⟨[], .pending⟩ ≠ .pending := by
  decide

/-- C3 amended: `poll_ready` returns `Ready` exactly when every indexed
sub-handler is ready; the default handler is never polled and its
readiness does not affect the result; and (absent handler errors) any
pending indexed sub-handler makes the result `Pending`. -/
theorem router_poll_ready_semantics {E : Type} (s : RouterServiceReadiness E) :
    (RouterService.poll_ready s = .ready ↔ ∀ h ∈ s.handlers, h = .ready) ∧
    (∀ d, RouterService.poll_ready {s with dflt := d} =
      RouterService.poll_ready s) ∧
    ((∀ h ∈ s.handlers, ∀ e, h ≠ .err e) → .pending ∈ s.handlers →
      RouterService.poll_ready s = .pending) := by
  refine ⟨?_, fun d => rfl, ?_⟩
  · simpa using pollReadyLoop_ready_iff s.handlers false
  · intro herr hp
    exact pollReadyLoop_pending s.handlers false herr (Or.inr hp)

/-- Witness for the C3 amended theorem: one ready and one pending handler
give `Pending`. -/
theorem router_poll_ready_semantics_witness :
    RouterService.poll_ready (E := Unit) ⟨[.ready, .pending], .ready⟩ = .pending :=
  (router_poll_ready_semantics ⟨[.ready, .pending], .ready⟩).2.2
    (by decide) (by decide)

/-- C8: after a call with a non-empty topic that some pattern recognizes
and that carries a topic alias, the alias is cached; a later call with an
empty topic and the same alias is dispatched to the same handler index
with the topic replaced by the cached path; and a call with an empty topic
whose alias is not in the cache falls through to the default handler. -/
theorem router_topic_alias_cache (recognize : String → Option Nat)
    (aliases : AliasMap) (req1 : PublishReq) (idx a : Nat)
    (ht : req1.topic ≠ "")
    (hr : recognize req1.topic = some idx)
    (ha : req1.topic_alias = some a) :
    (RouterService.call recognize aliases req1).1 = .handler idx req1 ∧
    (∀ req2 : PublishReq, req2.topic = "" → req2.topic_alias = some a →
      (RouterService.call recognize
          (RouterService.call recognize aliases req1).2 req2).1 =
        .handler idx {req2 with topic := req1.topic}) ∧
    (∀ (m : AliasMap) (req2 : PublishReq), req2.topic = "" →
      req2.topic_alias = some a → aliasLookup m a = none →
      (RouterService.call recognize m req2).1 = .dflt req2) := by
  refine ⟨?_, ?_, ?_⟩
  · simp [RouterService.call, ht, hr]
  · intro req2 h2 h2a
    have hal : (RouterService.call recognize aliases req1).2 =
        (a, idx, req1.topic) :: aliases := by
      simp [RouterService.call, ht, hr, ha, aliasInsert]
    rw [hal]
    simp [RouterService.call, h2, h2a, aliasLookup]
  · intro m req2 h2 h2a hmiss
    simp [RouterService.call, h2, h2a, hmiss]

/-- Witness for the C8 theorem: topic `"t"` with alias 7 cached, then an
empty-topic publish with alias 7 reaches handler 0 with topic `"t"`. -/
theorem router_topic_alias_cache_witness :
    (RouterService.call (fun t => if t = "t" then some 0 else none)
        ((RouterService.call (fun t => if t = "t" then some 0 else none)
            [] ⟨"t", some 7⟩).2)
        ⟨"", some 7⟩).1 = .handler 0 ⟨"t", some 7⟩ :=
  (router_topic_alias_cache (fun t => if t = "t" then some 0 else none)
      [] ⟨"t", some 7⟩ 0 7 (by decide) (by decide) rfl).2.1
    ⟨"", some 7⟩ rfl rfl

/-- C4: with `max_size = M > 0`, an input whose fixed header decodes to a
remaining length greater than `M` makes `decode` fail `MaxSizeExceeded`,
consume no bytes and leave the state at `FrameHeader` (the codec value is
returned unchanged). -/
theorem decode_max_size_exceeded {P : Type}
    (decodePacket : Nat → List Nat → Except DecodeError P)
    (c : Codec) (src : List Nat) (rl k : Nat)
    (hstate : c.state = .frameHeader)
    (hlen : 2 ≤ src.length)
    (hvar : decode_variable_length (src.drop 1) = .ok (some (rl, k)))
    (hmax : c.max_size ≠ 0) (hgt : c.max_size < rl) :
    Codec.decode decodePacket c src = (.error .maxSizeExceeded, c, src) := by
  have hnl : ¬ src.length < 2 := Nat.not_lt.mpr hlen
  simp only [Codec.decode, hstate, hnl, if_false, hvar]
  rw [if_pos ⟨hmax, hgt⟩]

/-- Witness for the C4 theorem: the source's own `test_max_size` input,
`max_size = 5` and bytes `0x00 0x09`. -/
theorem decode_max_size_exceeded_witness :
    Codec.decode (fun _ _ => (.ok () : Except DecodeError Unit))
        (Codec.new.withMaxSize 5) [0, 9] =
      (.error .maxSizeExceeded, Codec.new.withMaxSize 5, [0, 9]) :=
  decode_max_size_exceeded _ _ _ 9 1 rfl (by decide) rfl
    (by decide) (by decide)

/-- C7: whenever a `decode` call that starts at `FrameHeader` yields a
complete packet, the state is back at `FrameHeader` afterwards and the
buffer has been advanced exactly `1 + varlen_size + remaining_length`
bytes past the start of the frame. -/
theorem decode_complete_frame_consumption {P : Type}
    (decodePacket : Nat → List Nat → Except DecodeError P)
    (c : Codec) (src : List Nat) (p : P) (c2 : Codec) (src2 : List Nat)
    (hstate : c.state = .frameHeader)
    (hdec : Codec.decode decodePacket c src = (.ok (some p), c2, src2)) :
    c2.state = .frameHeader ∧
    ∃ rl k, decode_variable_length (src.drop 1) = .ok (some (rl, k)) ∧
      src2 = src.drop (1 + k + rl) := by
  simp only [Codec.decode, hstate] at hdec
  by_cases h2 : src.length < 2
  · rw [if_pos h2] at hdec
    simp at hdec
  · rw [if_neg h2] at hdec
    rcases hv : decode_variable_length (src.drop 1) with e | ov
    · simp only [hv] at hdec
      simp at hdec
    · rcases ov with _ | ⟨rl, k⟩
      · simp only [hv] at hdec
        simp at hdec
      · simp only [hv] at hdec
        by_cases hm : c.max_size ≠ 0 ∧ c.max_size < rl
        · rw [if_pos hm] at hdec
          simp at hdec
        · rw [if_neg hm] at hdec
          by_cases hs1 : (src.drop (k + 1)).length < rl
          · rw [if_pos hs1] at hdec
            simp at hdec
          · rw [if_neg hs1] at hdec
            simp only [decodeFrame] at hdec
            rw [if_neg hs1] at hdec
            rcases hp : decodePacket (src.headD 0) ((src.drop (k + 1)).take rl)
              with e | q
            · simp only [hp] at hdec
              simp at hdec
            · simp only [hp] at hdec
              simp only [Prod.mk.injEq] at hdec
              obtain ⟨-, hc, hsrc⟩ := hdec
              refine ⟨by rw [← hc], rl, k, rfl, ?_⟩
              rw [← hsrc, List.drop_drop]
              congr 1
              omega

/-- Witness for the C7 theorem: a one-byte frame `[0x30, 1, 0xAB]` decodes
completely and consumes all three bytes. -/
theorem decode_complete_frame_consumption_witness :
    (Codec.new.state = DecodeState.frameHeader) ∧
    ∃ rl k,
      decode_variable_length (([0x30, 1, 0xAB] : List Nat).drop 1) =
        .ok (some (rl, k)) ∧
      ([] : List Nat) = ([0x30, 1, 0xAB] : List Nat).drop (1 + k + rl) :=
  decode_complete_frame_consumption
    (fun _ _ => (.ok () : Except DecodeError Unit))
    Codec.new [0x30, 1, 0xAB] () ⟨.frameHeader, 0⟩ [] rfl rfl

/-- The wake loop delivers exactly one wake: dead waiters before the first
live one are discarded, the first live waiter is woken, and the rest are
kept. -/
theorem wakeOne_first_alive (pre : List Waiter) (w : Waiter) (post : List Waiter)
    (hpre : ∀ x ∈ pre, x.alive = false) (hw : w.alive = true) :
    wakeOne (pre ++ w :: post) = (post, some w.wid) := by
  induction pre with
  | nil => simp [wakeOne, hw]
  | cons x xs ih =>
      have hx := hpre x (List.mem_cons_self _ _)
      simpa [wakeOne, hx] using ih (fun y hy => hpre y (List.mem_cons_of_mem _ hy))

/-- The allocation phase never parks: parking happens only in the
admission check. -/
theorem allocAndSend_ne_parked (st : MqttSinkInner) (tp : AckType) (wid : Nat) :
    (allocAndSend st tp).1 ≠ .parked wid := by
  simp only [allocAndSend]
  split
  · simp
  · split <;> simp_all
    split <;> simp_all

/-- C2: for a sink whose sender is present and whose in-flight count is at
most `cap`, every ack-requiring send (publish QoS 1, subscribe,
unsubscribe — all instances of `sendAckRequiring`) parks on the waiter
FIFO exactly when the in-flight count equals `cap`; and on each
successfully correlated ack, `pkt_ack` pops waiters from the front of the
FIFO, skipping waiters whose receiver was dropped, and delivers exactly
one successful wake (to the first live waiter, the rest staying parked). -/
theorem receive_maximum_admission_and_wake :
    (∀ (st : MqttSinkInner) (tp : AckType) (sender : Sender),
       st.sink = some sender → st.queue.len ≤ st.cap →
       (((sendAckRequiring st tp).1 = .parked st.nextWaiter) ↔
          st.queue.len = st.cap) ∧
       (st.queue.len = st.cap →
         sendAckRequiring st tp =
           (.parked st.nextWaiter,
            {st with waiters := st.waiters ++ [⟨st.nextWaiter, true⟩],
                     nextWaiter := st.nextWaiter + 1}, none))) ∧
    (∀ st, PublishBuilder.send_at_least_once_step st = sendAckRequiring st .publish) ∧
    (∀ st, SubscribeBuilder.send_step st = sendAckRequiring st .subscribe) ∧
    (∀ st, UnsubscribeBuilder.send_step st = sendAckRequiring st .unsubscribe) ∧
    (∀ (st : MqttSinkInner) (pkt : Ack) (rest : List Nat) (chan : Nat)
       (tp : AckType) (pre : List Waiter) (w : Waiter) (post : List Waiter),
       st.queue_order = pkt.packet_id :: rest →
       st.queue.get? (pkt.packet_id - 1) = some (chan, tp) →
       pkt.is_match tp = true →
       st.waiters = pre ++ w :: post →
       (∀ x ∈ pre, x.alive = false) → w.alive = true →
       (MqttSink.pkt_ack st pkt).result = .ok ∧
       (MqttSink.pkt_ack st pkt).woken = some w.wid ∧
       (MqttSink.pkt_ack st pkt).state.waiters = post) := by
  refine ⟨?_, fun st => rfl, fun st => rfl, fun st => rfl, ?_⟩
  · intro st tp sender hs hlen
    constructor
    · constructor
      · intro hp
        by_contra hne
        have hlt : 0 < st.cap - st.queue.len :=
          Nat.sub_pos_of_lt (Nat.lt_of_le_of_ne hlen hne)
        have hcond : ¬ (st.cap - st.queue.len = 0) := by omega
        rw [sendAckRequiring, hs] at hp
        simp only [hcond, if_false] at hp
        exact allocAndSend_ne_parked st tp st.nextWaiter hp
      · intro heq
        rw [sendAckRequiring, hs]
        simp [heq]
    · intro heq
      rw [sendAckRequiring, hs]
      simp [heq]
  · intro st pkt rest chan tp pre w post hq hsl hm hwait hpre hw
    have hwk := wakeOne_first_alive pre w post hpre hw
    refine ⟨?_, ?_, ?_⟩ <;>
      simp [MqttSink.pkt_ack, hq, hsl, hm, hwait, hwk]

/-- Witness for the C2 theorem: with `cap = 1` and one in-flight publish,
a send parks; an ack on a state whose waiter FIFO is
`[dead 3, live 5, live 6]` wakes exactly waiter 5 and keeps waiter 6. -/
theorem receive_maximum_admission_and_wake_witness :
    (sendAckRequiring
        { cap := 1, sink := some ⟨true⟩,
          queue := ⟨[some (0, AckType.publish)], []⟩, queue_order := [1],
          waiters := [], nextChan := 1, nextWaiter := 0 } .publish).1 =
      .parked 0 ∧
    (MqttSink.pkt_ack
        { cap := 1, sink := some ⟨true⟩,
          queue := ⟨[some (0, AckType.publish)], []⟩, queue_order := [1],
          waiters := [⟨3, false⟩, ⟨5, true⟩, ⟨6, true⟩],
          nextChan := 1, nextWaiter := 7 } (.publish 1)).woken = some 5 ∧
    (MqttSink.pkt_ack
        { cap := 1, sink := some ⟨true⟩,
          queue := ⟨[some (0, AckType.publish)], []⟩, queue_order := [1],
          waiters := [⟨3, false⟩, ⟨5, true⟩, ⟨6, true⟩],
          nextChan := 1, nextWaiter := 7 } (.publish 1)).state.waiters =
      [⟨6, true⟩] := by
  refine ⟨?_, ?_, ?_⟩
  · rw [(receive_maximum_admission_and_wake.1
        { cap := 1, sink := some ⟨true⟩,
          queue := ⟨[some (0, AckType.publish)], []⟩, queue_order := [1],
          waiters := [], nextChan := 1, nextWaiter := 0 } .publish ⟨true⟩
        rfl (by decide)).2 (by decide)]
  · exact (receive_maximum_admission_and_wake.2.2.2.2
      { cap := 1, sink := some ⟨true⟩,
        queue := ⟨[some (0, AckType.publish)], []⟩, queue_order := [1],
        waiters := [⟨3, false⟩, ⟨5, true⟩, ⟨6, true⟩],
        nextChan := 1, nextWaiter := 7 } (.publish 1) [] 0 .publish
      [⟨3, false⟩] ⟨5, true⟩ [⟨6, true⟩] rfl rfl rfl rfl
      (by decide) rfl).2.1
  · exact (receive_maximum_admission_and_wake.2.2.2.2
      { cap := 1, sink := some ⟨true⟩,
        queue := ⟨[some (0, AckType.publish)], []⟩, queue_order := [1],
        waiters := [⟨3, false⟩, ⟨5, true⟩, ⟨6, true⟩],
        nextChan := 1, nextWaiter := 7 } (.publish 1) [] 0 .publish
      [⟨3, false⟩] ⟨5, true⟩ [⟨6, true⟩] rfl rfl rfl rfl
      (by decide) rfl).2.2

/-- Equation form of `Slab.insert_key_not_contains`. -/
theorem Slab.insert_eq_key_vacant {s : Slab α} {v : α} {i : Nat} {q : Slab α}
    (hins : s.insert v = (i, q)) (hwf : s.WF) : s.contains i = false := by
  have h := Slab.insert_key_not_contains s v hwf
  rw [hins] at h
  exact h

/-- Equation form of `Slab.insert_get?_key`. -/
theorem Slab.insert_eq_get?_key {s : Slab α} {v : α} {i : Nat} {q : Slab α}
    (hins : s.insert v = (i, q)) (hwf : s.WF) : q.get? i = some v := by
  have h := Slab.insert_get?_key s v hwf
  rw [hins] at h
  exact h

/-- Equation form of `Slab.insert_get?_ne`. -/
theorem Slab.insert_eq_get?_ne {s : Slab α} {v : α} {i : Nat} {q : Slab α}
    (hins : s.insert v = (i, q)) {j : Nat} (hj : j ≠ i) :
    q.get? j = s.get? j := by
  have h := Slab.insert_get?_ne s v j (by rw [hins]; exact hj)
  rw [hins] at h
  exact h

/-- Equation form of `Slab.insert_WF`. -/
theorem Slab.insert_eq_WF {s : Slab α} {v : α} {i : Nat} {q : Slab α}
    (hins : s.insert v = (i, q)) (hwf : s.WF) : q.WF := by
  have h := Slab.insert_WF s v hwf
  rw [hins] at h
  exact h

/-- A vacant key looks up to `none`. -/
theorem Slab.get?_eq_none_of_not_contains {s : Slab α} {k : Nat}
    (h : s.contains k = false) : s.get? k = none := by
  cases hg : s.get? k with
  | none => rfl
  | some v => rw [Slab.contains, hg] at h; simp at h

/-- Removing a just-inserted slot restores every lookup. -/
theorem Slab.erase_insert_get? {s : Slab α} {v : α} {i : Nat} {q : Slab α}
    (hins : s.insert v = (i, q)) (hwf : s.WF) (j : Nat) :
    (q.erase i).get? j = s.get? j := by
  by_cases hj : j = i
  · subst hj
    rw [Slab.erase_get?_key,
      Slab.get?_eq_none_of_not_contains (Slab.insert_eq_key_vacant hins hwf)]
  · rw [Slab.erase_get?_ne _ _ _ hj, Slab.insert_eq_get?_ne hins hj]

/-- Removing a just-inserted slot restores occupancy everywhere. -/
theorem Slab.erase_insert_contains {s : Slab α} {v : α} {i : Nat} {q : Slab α}
    (hins : s.insert v = (i, q)) (hwf : s.WF) (j : Nat) :
    (q.erase i).contains j = s.contains j := by
  rw [Slab.contains, Slab.contains, Slab.erase_insert_get? hins hwf]

/-- Removing a just-inserted slot restores the slab's occupied count. -/
theorem Slab.erase_insert_len {s : Slab α} {v : α} {i : Nat} {q : Slab α}
    (hins : s.insert v = (i, q)) (hwf : s.WF) : (q.erase i).len = s.len := by
  rcases hf : s.free with _ | ⟨f, rest⟩
  · simp only [Slab.insert, hf, Prod.mk.injEq] at hins
    obtain ⟨hi, hq⟩ := hins
    rw [← hq, ← hi]
    simp [Slab.erase, Slab.len, list_set_concat_length, List.countP_append]
  · have hfe := hwf.2.1 f (by rw [hf]; exact List.mem_cons_self f rest)
    simp only [Slab.insert, hf, Prod.mk.injEq] at hins
    obtain ⟨hi, hq⟩ := hins
    have heq : q.erase i = s := by
      rw [← hq, ← hi]
      show (⟨(s.entries.set f (some v)).set f none, f :: rest⟩ : Slab α) = s
      rw [List.set_set, list_set_getElem?_self hfe, ← hf]
    rw [heq]

/-- Removing a just-inserted slot leaves a well-formed slab. -/
theorem Slab.erase_insert_WF {s : Slab α} {v : α} {i : Nat} {q : Slab α}
    (hins : s.insert v = (i, q)) (hwf : s.WF) : (q.erase i).WF := by
  have hqwf : q.WF := Slab.insert_eq_WF hins hwf
  have hocc : q.contains i = true := by
    rw [Slab.contains, Slab.insert_eq_get?_key hins hwf]
    rfl
  exact Slab.erase_WF q i hocc hqwf

/-- C5: for every ack-requiring send's allocation phase, the allocated
packet-id equals the in-flight slot's dense index + 1 and lies in
[1, 65535]; if the new index + 1 would exceed 65535, the send fails
`PacketIdNotAvailable`, the just-inserted slot is removed, no message is
pushed, and no entry is appended to `queue_order` — the in-flight state
(occupancy and count) is as before the attempt. -/
theorem packet_id_allocation (st : MqttSinkInner) (tp : AckType)
    (sender : Sender) (i : Nat) (q : Slab (Nat × AckType))
    (hs : st.sink = some sender) (hwf : st.queue.WF)
    (hins : st.queue.insert (st.nextChan, tp) = (i, q)) :
    (∀ pid, (allocAndSend st tp).1 = .sent pid →
       pid = i + 1 ∧ 1 ≤ pid ∧ pid ≤ 65535 ∧
       (allocAndSend st tp).2.1.queue_order = st.queue_order ++ [pid] ∧
       (allocAndSend st tp).2.1.queue.get? (pid - 1) = some (st.nextChan, tp)) ∧
    (i + 1 > 65535 →
       (allocAndSend st tp).1 = .packetIdNotAvailable ∧
       (allocAndSend st tp).2.1.queue_order = st.queue_order ∧
       (∀ j, (allocAndSend st tp).2.1.queue.contains j = st.queue.contains j) ∧
       (allocAndSend st tp).2.1.queue.len = st.queue.len ∧
       (allocAndSend st tp).2.2 = none) ∧
    (i + 1 ≤ 65535 → sender.alive = true →
       (allocAndSend st tp).1 = .sent (i + 1)) := by
  by_cases hov : i + 1 > 65535
  · have hred : allocAndSend st tp =
        (.packetIdNotAvailable,
         {st with nextChan := st.nextChan + 1, queue := q.erase i}, none) := by
      simp only [allocAndSend]
      rw [show ({st with nextChan := st.nextChan + 1} :
            MqttSinkInner).queue.insert (st.nextChan, tp) = (i, q) from hins]
      rw [if_pos hov]
    refine ⟨?_, ?_, ?_⟩
    · intro pid hpid
      rw [hred] at hpid
      simp at hpid
    · intro _
      refine ⟨by rw [hred], by rw [hred], ?_, ?_, by rw [hred]⟩
      · intro j
        rw [hred]
        exact Slab.erase_insert_contains hins hwf j
      · rw [hred]
        exact Slab.erase_insert_len hins hwf
    · intro hle _
      omega
  · have hred : allocAndSend st tp =
        (match st.sink with
         | some sender =>
             if sender.alive then
               (.sent (i + 1),
                {st with nextChan := st.nextChan + 1, queue := q,
                         queue_order := st.queue_order ++ [i + 1]},
                some (mkMsg tp (i + 1)))
             else
               (.disconnected,
                {st with nextChan := st.nextChan + 1, queue := q,
                         queue_order := st.queue_order ++ [i + 1]}, none)
         | none =>
             (.panicked,
              {st with nextChan := st.nextChan + 1, queue := q,
                       queue_order := st.queue_order ++ [i + 1]}, none)) := by
      simp only [allocAndSend]
      rw [show ({st with nextChan := st.nextChan + 1} :
            MqttSinkInner).queue.insert (st.nextChan, tp) = (i, q) from hins]
      rw [if_neg hov]
    rw [hred, hs]
    by_cases hal : sender.alive
    · simp only [hal, if_true]
      refine ⟨?_, ?_, ?_⟩
      · intro pid hpid
        simp only [SendOutcome.sent.injEq] at hpid
        subst hpid
        refine ⟨rfl, by omega, by omega, rfl, ?_⟩
        show q.get? (i + 1 - 1) = some (st.nextChan, tp)
        simpa using Slab.insert_eq_get?_key hins hwf
      · intro h
        omega
      · intro _ _
        trivial
    · simp [hal, hov]

/-- Witness for the C5 theorem at a fresh sink: the first allocation
yields packet-id 1 = slot index 0 + 1. -/
theorem packet_id_allocation_witness :
    (allocAndSend (MqttSink.new 2) .publish).1 = .sent 1 :=
  (packet_id_allocation (MqttSink.new 2) .publish ⟨true⟩ 0
      ⟨[some (0, .publish)], []⟩ rfl
      ⟨List.nodup_nil, fun f hf => absurd hf (List.not_mem_nil f),
        fun j hj _ => absurd hj (Nat.not_lt_zero j)⟩ rfl).2.2
    (by decide) rfl

/-- The sink's in-flight invariant: the slab free list is well-formed,
the ids recorded in `queue_order` are distinct, and every one of them is a
valid packet-id (≥ 1) whose slot at index `id - 1` is occupied. -/
def SinkInvariant (st : MqttSinkInner) : Prop :=
  st.queue.WF ∧ st.queue_order.Nodup ∧
  ∀ id ∈ st.queue_order, 1 ≤ id ∧ st.queue.contains (id - 1) = true

/-- The allocation phase preserves the sink invariant. -/
theorem allocAndSend_preserves_invariant (st : MqttSinkInner) (tp : AckType)
    (h : SinkInvariant st) : SinkInvariant (allocAndSend st tp).2.1 := by
  obtain ⟨hwf, hnd, hmem⟩ := h
  rcases hins : st.queue.insert (st.nextChan, tp) with ⟨i, q⟩
  have hins0 : ({st with nextChan := st.nextChan + 1} :
      MqttSinkInner).queue.insert (st.nextChan, tp) = (i, q) := hins
  by_cases hov : i + 1 > 65535
  · simp only [allocAndSend, hins0, if_pos hov]
    refine ⟨Slab.erase_insert_WF hins hwf, hnd, ?_⟩
    intro id hid
    refine ⟨(hmem id hid).1, ?_⟩
    rw [Slab.erase_insert_contains hins hwf]
    exact (hmem id hid).2
  · simp only [allocAndSend, hins0, if_neg hov]
    have hvac : st.queue.contains i = false := Slab.insert_eq_key_vacant hins hwf
    have hqwf : q.WF := Slab.insert_eq_WF hins hwf
    have hkey : q.get? i = some (st.nextChan, tp) :=
      Slab.insert_eq_get?_key hins hwf
    have hnotmem : (i + 1) ∉ st.queue_order := by
      intro hin
      have h2 := (hmem _ hin).2
      rw [Nat.add_sub_cancel, hvac] at h2
      exact Bool.noConfusion h2
    have hinv2 : SinkInvariant
        ({st with nextChan := st.nextChan + 1, queue := q,
                  queue_order := st.queue_order ++ [i + 1]} : MqttSinkInner) := by
      refine ⟨hqwf, ?_, ?_⟩
      · refine List.nodup_append.mpr ⟨hnd, List.nodup_singleton _, ?_⟩
        intro a ha hb
        rw [List.mem_singleton] at hb
        subst hb
        exact hnotmem ha
      · intro id hid
        rcases List.mem_append.mp hid with hold | hnew
        · have hm0 := hmem id hold
          refine ⟨hm0.1, ?_⟩
          have hne : id - 1 ≠ i := by
            intro hh
            have h2 := hm0.2
            rw [hh, hvac] at h2
            exact Bool.noConfusion h2
          rw [Slab.contains, Slab.insert_eq_get?_ne hins hne]
          exact hm0.2
        · rw [List.mem_singleton] at hnew
          subst hnew
          refine ⟨Nat.le_add_left 1 i, ?_⟩
          rw [Nat.add_sub_cancel, Slab.contains, hkey]
          rfl
    rcases hsk : st.sink with _ | sender
    · simpa [hsk] using hinv2
    · rcases hal : sender.alive with _ | _
      · simpa [hsk, hal] using hinv2
      · simpa [hsk, hal] using hinv2

/-- The synchronous send phase preserves the sink invariant. -/
theorem sendAckRequiring_preserves_invariant (st : MqttSinkInner)
    (tp : AckType) (h : SinkInvariant st) :
    SinkInvariant (sendAckRequiring st tp).2.1 := by
  rcases hs : st.sink with _ | sender
  · simpa [sendAckRequiring, hs] using h
  · by_cases hcap : st.cap - st.queue.len = 0
    · simp only [sendAckRequiring, hs, hcap, if_true]
      exact h
    · simp only [sendAckRequiring, hs, hcap, if_false]
      exact allocAndSend_preserves_invariant st tp h

/-- `pkt_ack` preserves the sink invariant, and under the invariant it can
never reach the `unreachable!` branch. -/
theorem pkt_ack_preserves_invariant (st : MqttSinkInner) (pkt : Ack)
    (h : SinkInvariant st) :
    SinkInvariant (MqttSink.pkt_ack st pkt).state ∧
    (MqttSink.pkt_ack st pkt).result ≠ .panicked := by
  obtain ⟨hwf, hnd, hmem⟩ := h
  rcases hq : st.queue_order with _ | ⟨idx, rest⟩
  · have hred : MqttSink.pkt_ack st pkt = ⟨.borrowPanic, st, none, none⟩ := by
      simp [MqttSink.pkt_ack, hq]
    rw [hred]
    exact ⟨⟨hwf, hnd, hmem⟩, by simp⟩
  · have hnd' : rest.Nodup := by
      rw [hq] at hnd
      exact hnd.of_cons
    by_cases hid : idx = pkt.packet_id
    · subst hid
      have hhead := hmem pkt.packet_id (by rw [hq]; exact List.mem_cons_self _ _)
      obtain ⟨hge1, hcont⟩ := hhead
      rcases hgq : st.queue.get? (pkt.packet_id - 1) with _ | ⟨chan, tp⟩
      · rw [Slab.contains, hgq] at hcont
        exact absurd hcont (by simp)
      · have hewf : (st.queue.erase (pkt.packet_id - 1)).WF :=
          Slab.erase_WF _ _ hcont hwf
        have hdmem : ∀ id ∈ rest, 1 ≤ id ∧
            (st.queue.erase (pkt.packet_id - 1)).contains (id - 1) = true := by
          intro id hdi
          have hm0 := hmem id (by rw [hq]; exact List.mem_cons_of_mem _ hdi)
          refine ⟨hm0.1, ?_⟩
          have hne : id ≠ pkt.packet_id := by
            intro hh
            rw [hq] at hnd
            exact (List.nodup_cons.mp hnd).1 (hh ▸ hdi)
          have hm1 := hm0.1
          have hne1 : id - 1 ≠ pkt.packet_id - 1 := by omega
          rw [Slab.contains, Slab.erase_get?_ne _ _ _ hne1]
          exact hm0.2
        by_cases hmt : pkt.is_match tp
        · have hred : MqttSink.pkt_ack st pkt =
              ⟨.ok,
               {st with queue_order := rest,
                        queue := st.queue.erase (pkt.packet_id - 1),
                        waiters := (wakeOne st.waiters).1},
               some (chan, pkt), (wakeOne st.waiters).2⟩ := by
            simp [MqttSink.pkt_ack, hq, hgq, hmt]
          rw [hred]
          exact ⟨⟨hewf, hnd', hdmem⟩, by simp⟩
        · have hmf : pkt.is_match tp = false := by
            simpa using hmt
          have hred : MqttSink.pkt_ack st pkt =
              ⟨.err (.unexpected pkt.packet_type tp.name),
               {st with queue_order := rest,
                        queue := st.queue.erase (pkt.packet_id - 1)},
               none, none⟩ := by
            simp [MqttSink.pkt_ack, hq, hgq, hmf]
          rw [hred]
          exact ⟨⟨hewf, hnd', hdmem⟩, by simp⟩
    · have hred : MqttSink.pkt_ack st pkt =
          ⟨.borrowPanic, {st with queue_order := rest}, none, none⟩ := by
        simp [MqttSink.pkt_ack, hq, hid]
      rw [hred]
      refine ⟨⟨hwf, hnd', ?_⟩, by simp⟩
      intro id hdi
      exact hmem id (by rw [hq]; exact List.mem_cons_of_mem _ hdi)

/-- C10: every sink operation (a fresh sink, the allocation phase of the
publish/subscribe/unsubscribe builders, and removal in `pkt_ack`)
preserves the invariant that every packet-id in `queue_order` refers to an
occupied slot of the in-flight table at index `id - 1`; hence in
`pkt_ack`, the slot lookup always succeeds and the `unreachable!` branch
can never execute. -/
theorem sink_inflight_invariant :
    (∀ cap, SinkInvariant (MqttSink.new cap)) ∧
    (∀ (st : MqttSinkInner) (tp : AckType), SinkInvariant st →
       SinkInvariant (allocAndSend st tp).2.1 ∧
       SinkInvariant (sendAckRequiring st tp).2.1 ∧
       SinkInvariant (PublishBuilder.send_at_least_once_step st).2.1 ∧
       SinkInvariant (SubscribeBuilder.send_step st).2.1 ∧
       SinkInvariant (UnsubscribeBuilder.send_step st).2.1) ∧
    (∀ (st : MqttSinkInner) (pkt : Ack), SinkInvariant st →
       SinkInvariant (MqttSink.pkt_ack st pkt).state ∧
       (MqttSink.pkt_ack st pkt).result ≠ .panicked) := by
  refine ⟨?_, ?_, pkt_ack_preserves_invariant⟩
  · intro cap
    exact ⟨⟨List.nodup_nil, fun f hf => absurd hf (List.not_mem_nil f),
        fun j hj _ => absurd hj (Nat.not_lt_zero j)⟩,
      List.nodup_nil, fun id hid => absurd hid (List.not_mem_nil id)⟩
  · intro st tp h
    exact ⟨allocAndSend_preserves_invariant st tp h,
      sendAckRequiring_preserves_invariant st tp h,
      sendAckRequiring_preserves_invariant st .publish h,
      sendAckRequiring_preserves_invariant st .subscribe h,
      sendAckRequiring_preserves_invariant st .unsubscribe h⟩

/-- Witness for the C10 theorem: a fresh sink satisfies the invariant and
its `pkt_ack` never panics. -/
theorem sink_inflight_invariant_witness :
    (MqttSink.pkt_ack (MqttSink.new 2) (.publish 1)).result ≠ .panicked :=
  (sink_inflight_invariant.2.2 (MqttSink.new 2) (.publish 1)
    (sink_inflight_invariant.1 2)).2

end ActixMqtt
